import Mathlib

/-!
Verification of the `rfdate` library: a lexical date extractor that groups
digit runs separated by date-like punctuation into candidate groups, then
disambiguates each group into a partially-known date (year/month/day, each
optionally unknown) by magnitude heuristics, plus a field-by-field comparison
over such partial dates.

The Rust source (`src/lib.rs`) is shallowly embedded below: `Part` (a digit
buffer) becomes `List Char`, the scanner state of `find_dates` becomes an
explicit `ScanState` threaded through a fold, `u16` values become `Nat` with
an explicit 65535 overflow bound in parsing, and fallible operations return
`Except`.
-/

namespace Rfdate

/-- A numeric part: the `Part(Vec<char>)` tuple struct, a buffer of scanned
digit characters. -/
abbrev Part := List Char

/-- A partially-known date: the `Date` struct with optional `u16` fields
`year`, `month`, `day` (values are below 65536 whenever produced by parsing). -/
structure Date where
  year : Option Nat
  month : Option Nat
  day : Option Nat
deriving DecidableEq, Repr

/-- The kinds of `std::num::ParseIntError` reachable from `str::parse::<u16>`. -/
inductive IntErrorKind where
  | empty
  | invalidDigit
  | posOverflow
deriving DecidableEq, Repr

/-- The `Display` message of a `ParseIntError`, as produced by `err.to_string()`
in Rust for each reachable kind. -/
def int_error_message : IntErrorKind → String
  | .empty => "cannot parse integer from empty string"
  | .invalidDigit => "invalid digit found in string"
  | .posOverflow => "number too large to fit in target type"

/-- The `DateError` enum of the source, `u16` payloads embedded as `Nat`. -/
inductive DateError where
  | NoDatesFound (msg : String)
  | UndecidedDate (vals : Option Nat × Option Nat × Option Nat)
  | InvalidDateFormat (msg : String)
  | ParseIntError (kind : IntErrorKind)
deriving DecidableEq, Repr

/-- `is_separator`: the recognized date separators. -/
def is_separator (c : Char) : Bool :=
  c == '-' || c == '/' || c == '_' || c == ' ' || c == '.'

/-- One step of the digit-accumulating loop of `u16::from_str` (radix 10):
reject a non-digit character, multiply-and-add otherwise, failing with
`PosOverflow` past `u16::MAX`. -/
def parse_digits : List Char → Nat → Except IntErrorKind Nat
  | [], acc => .ok acc
  | c :: cs, acc =>
    if c.isDigit then
      let v := acc * 10 + (c.toNat - '0'.toNat)
      if v > 65535 then .error .posOverflow else parse_digits cs v
    else .error .invalidDigit

/-- `str::parse::<u16>`: empty input is `Empty`, an optional leading `'+'` is
allowed (with nothing after it also `Empty`), then the digit loop runs. -/
def parse_u16 (s : List Char) : Except IntErrorKind Nat :=
  match s with
  | [] => .error .empty
  | c :: cs =>
    let digits := if c == '+' then cs else c :: cs
    match digits with
    | [] => .error .empty
    | _ => parse_digits digits 0

/-- The index-0 zero strip inside `Part::to_u16`: the `enumerate().filter_map`
drops a character exactly when its index is 0 and it equals `'0'`. -/
def strip0 : Part → List Char
  | [] => []
  | c :: rest => if c == '0' then rest else c :: rest

/-- The `From<ParseIntError> for DateError` impl: every parse failure becomes
`InvalidDateFormat` carrying the parse error's own message. -/
def date_error_from_parse (k : IntErrorKind) : DateError :=
  .InvalidDateFormat (int_error_message k)

/-- `Part::to_u16`: strip the index-0 zero, parse the rest as `u16`, and route
failures through the `From<ParseIntError>` conversion (via `?`). -/
def to_u16 (p : Part) : Except DateError Nat :=
  match parse_u16 (strip0 p) with
  | .ok v => .ok v
  | .error k => .error (date_error_from_parse k)

/-- The `Display` impl of `DateHolder` at character level: each part's digits
followed by a space, with the final character popped. -/
def holder_display_chars (h : List Part) : List Char :=
  (h.foldl (fun acc p => acc ++ p ++ [' ']) []).dropLast

/-- The `Display` rendering of a `DateHolder` (parts space-joined). -/
def holder_display (h : List Part) : String :=
  String.mk (holder_display_chars h)

/-- `DateHolder::as_date`: numeric conversion of each part in order (first
failure propagates), then structural dispatch on the part count with the
magnitude-based role assignment. -/
def as_date (h : List Part) : Except DateError Date :=
  match h with
  | [p1, p2] =>
    match to_u16 p1 with
    | .error e => .error e
    | .ok opt1 =>
      match to_u16 p2 with
      | .error e => .error e
      | .ok opt2 =>
        if opt1 > 12 then
          .ok ⟨some opt1, some opt2, none⟩
        else if opt2 > 12 then
          .ok ⟨some opt2, some opt1, none⟩
        else
          .error (.UndecidedDate (some opt1, some opt2, none))
  | [p1, p2, p3] =>
    match to_u16 p1 with
    | .error e => .error e
    | .ok opt1 =>
      match to_u16 p2 with
      | .error e => .error e
      | .ok opt2 =>
        match to_u16 p3 with
        | .error e => .error e
        | .ok opt3 =>
          if opt1 > 12 then
            .ok ⟨some opt1, some opt2, some opt3⟩
          else if opt3 > 12 ∧ opt1 > 12 then
            .ok ⟨some opt3, some opt1, some opt2⟩
          else if opt2 > 12 then
            .ok ⟨some opt3, some opt1, some opt2⟩
          else if opt1 = opt2 ∧ opt2 = opt3 then
            .ok ⟨some opt1, some opt2, some opt3⟩
          else
            .error (.UndecidedDate (some opt1, some opt2, some opt3))
  | other => .error (.InvalidDateFormat (holder_display other))

/-- The mutable scanner state of `find_dates`: the in-progress `Part`, the
in-progress `DateHolder`, and the accumulated `DateHolders`. -/
structure ScanState where
  part : Part
  holder : List Part
  out : List (List Part)
deriving DecidableEq, Repr

/-- The per-character body of the `for letter in s.chars()` loop in
`find_dates`. `DateHolder::add_date_part` (push a clone, clear the part) is the
`holder ++ [part], part := []` update; `DateHolders::push` is the
`out ++ [holder], holder := []` update. -/
def scan_step (st : ScanState) (c : Char) : ScanState :=
  if is_separator c || c.isDigit then
    if c.isDigit then
      { st with part := st.part ++ [c] }
    else if !st.part.isEmpty then
      { st with part := [], holder := st.holder ++ [st.part] }
    else
      st
  else if st.holder.length ≥ 2 then
    { st with holder := [], out := st.out ++ [st.holder] }
  else if !st.holder.isEmpty then
    { st with part := [], holder := [] }
  else
    st

/-- The end-of-input flush of `find_dates`: if the in-progress holder is
non-empty, `add_date_part` runs unconditionally (appending the in-progress
part even when it is empty) and the holder is pushed. -/
def finalize_state (st : ScanState) : List (List Part) :=
  if !st.holder.isEmpty then st.out ++ [st.holder ++ [st.part]] else st.out

/-- The segmentation phase of `find_dates`: fold the scanner over the input
characters starting from all-empty state, then flush. -/
def segment (cs : List Char) : List (List Part) :=
  finalize_state (cs.foldl scan_step ⟨[], [], []⟩)

/-- `find_dates`: segment the input, then `DateHolders::as_dates` maps each
holder through `as_date` in order of appearance. -/
def find_dates (s : String) : List (Except DateError Date) :=
  (segment s.data).map as_date

/-- `find_last_date`: `find_dates(s).pop()` returns the last entry if any,
otherwise `NoDatesFound` carrying the original input. -/
def find_last_date (s : String) : Except DateError Date :=
  match (find_dates s).getLast? with
  | some r => r
  | none => .error (.NoDatesFound s)

/-- `u16::cmp` inside the comparison loop, on the embedded `Nat` values. -/
def num_cmp (a b : Nat) : Ordering :=
  if a < b then .lt else if b < a then .gt else .eq

/-- The `for (a, b) in ... zip(...)` loop of `PartialOrd for Date`: early
return on none-vs-some, some-vs-none, or an unequal known pair; continue
otherwise; `Some(Equal)` after the loop. -/
def cmp_loop : List (Option Nat × Option Nat) → Option Ordering
  | [] => some .eq
  | (a, b) :: rest =>
    if a.isNone && b.isSome then
      some .lt
    else if a.isSome && b.isNone then
      some .gt
    else
      match a, b with
      | some x, some y =>
        match num_cmp x y with
        | .lt => some .lt
        | .gt => some .gt
        | .eq => cmp_loop rest
      | _, _ => cmp_loop rest

/-- `PartialOrd::partial_cmp for Date`: run the loop over the zipped field
arrays `[year, month, day]`. -/
def partial_cmp (d1 d2 : Date) : Option Ordering :=
  cmp_loop [(d1.year, d2.year), (d1.month, d2.month), (d1.day, d2.day)]

/-- The position of the first conversion failure in a holder: first `error`
entry of the mapped list, mirroring the order of the `?` propagations in
`as_date`. -/
def first_error : List (Except DateError Nat) → Option DateError
  | [] => none
  | .error e :: _ => some e
  | .ok _ :: rest => first_error rest

/-- Modelled from the spec (claim C4's reading of the tokenizer): the scanner
step in which mid-scan finalization also discards the in-progress partial
`NumericPart`; identical to `scan_step` otherwise. -/
def scan_step_discard (st : ScanState) (c : Char) : ScanState :=
  if is_separator c || c.isDigit then
    if c.isDigit then
      { st with part := st.part ++ [c] }
    else if !st.part.isEmpty then
      { st with part := [], holder := st.holder ++ [st.part] }
    else
      st
  else if st.holder.length ≥ 2 then
    { st with part := [], holder := [], out := st.out ++ [st.holder] }
  else if !st.holder.isEmpty then
    { st with part := [], holder := [] }
  else
    st

/-- Segmentation using the discarding step, for comparison with `segment`. -/
def segment_discard (cs : List Char) : List (List Part) :=
  finalize_state (cs.foldl scan_step_discard ⟨[], [], []⟩)

/-- Modelled from the spec (claim C7): `as_date` with the unreachable second
branch of the 3-part dispatch (`v3 > 12 AND v1 > 12`) removed. -/
def as_date_no_branch2 (h : List Part) : Except DateError Date :=
  match h with
  | [p1, p2] =>
    match to_u16 p1 with
    | .error e => .error e
    | .ok opt1 =>
      match to_u16 p2 with
      | .error e => .error e
      | .ok opt2 =>
        if opt1 > 12 then
          .ok ⟨some opt1, some opt2, none⟩
        else if opt2 > 12 then
          .ok ⟨some opt2, some opt1, none⟩
        else
          .error (.UndecidedDate (some opt1, some opt2, none))
  | [p1, p2, p3] =>
    match to_u16 p1 with
    | .error e => .error e
    | .ok opt1 =>
      match to_u16 p2 with
      | .error e => .error e
      | .ok opt2 =>
        match to_u16 p3 with
        | .error e => .error e
        | .ok opt3 =>
          if opt1 > 12 then
            .ok ⟨some opt1, some opt2, some opt3⟩
          else if opt2 > 12 then
            .ok ⟨some opt3, some opt1, some opt2⟩
          else if opt1 = opt2 ∧ opt2 = opt3 then
            .ok ⟨some opt1, some opt2, some opt3⟩
          else
            .error (.UndecidedDate (some opt1, some opt2, some opt3))
  | other => .error (.InvalidDateFormat (holder_display other))

/-- Modelled from the spec (§4.4, claim C8): the per-field comparison rule,
`none` meaning "pass to the next field". -/
def field_rule (a b : Option Nat) : Option Ordering :=
  match a, b with
  | none, some _ => some .lt
  | some _, none => some .gt
  | some x, some y => if x < y then some .lt else if y < x then some .gt else none
  | none, none => none

/-- Modelled from the spec (§4.4, claim C8): examine (year, month, day) in
order under `field_rule`; equal when all three fields are exhausted. -/
def cmp_described (d1 d2 : Date) : Ordering :=
  match field_rule d1.year d2.year with
  | some o => o
  | none =>
    match field_rule d1.month d2.month with
    | some o => o
    | none =>
      match field_rule d1.day d2.day with
      | some o => o
      | none => .eq

/-- A digit immediately followed by a separator immediately followed by a
digit, somewhere in the character list (claim C2's pattern, strict reading). -/
def has_dsd : List Char → Bool
  | a :: b :: c :: rest => (a.isDigit && is_separator b && c.isDigit) || has_dsd (b :: c :: rest)
  | _ => false

/-- Skip any run of separators, then require a digit (auxiliary to
`has_joined`). -/
def digit_after_seps : List Char → Bool
  | [] => false
  | c :: rest => if is_separator c then digit_after_seps rest else c.isDigit

/-- Two digit runs joined by one or more separators, somewhere in the list
(claim C2's pattern, liberal reading). -/
def has_joined : List Char → Bool
  | a :: b :: rest => (a.isDigit && is_separator b && digit_after_seps rest) || has_joined (b :: rest)
  | _ => false

/-! ## Helper lemmas -/

/-- Every failure of `to_u16` is an `InvalidDateFormat` error, because the
`From<ParseIntError>` conversion produces exactly that variant. -/
theorem to_u16_error_shape (p : Part) (e : DateError) (h : to_u16 p = .error e) :
    ∃ m, e = DateError.InvalidDateFormat m := by
  unfold to_u16 at h
  cases hp : parse_u16 (strip0 p) with
  | ok v => rw [hp] at h; exact absurd h (by simp)
  | error k => rw [hp] at h; exact ⟨int_error_message k, (Except.error.inj h).symm⟩

/-- If some error occurs in a list of conversion results, `first_error`
returns one. -/
theorem first_error_is_some (l : List (Except DateError Nat)) (e : DateError)
    (hmem : .error e ∈ l) : ∃ e', first_error l = some e' := by
  induction l with
  | nil => cases hmem
  | cons x xs ih =>
    cases x with
    | error k => exact ⟨k, rfl⟩
    | ok v =>
      rcases List.mem_cons.mp hmem with h | h
      · exact absurd h (by simp)
      · exact ih h

/-- On a 2- or 3-part holder, `as_date` propagates the first conversion
failure unchanged, and that failure is an `InvalidDateFormat` error. -/
theorem as_date_err_of_first_error (h : List Part) (e : DateError)
    (hl : h.length = 2 ∨ h.length = 3)
    (he : first_error (h.map to_u16) = some e) :
    as_date h = .error e ∧ ∃ m, e = DateError.InvalidDateFormat m := by
  rcases hl with hl | hl
  · obtain ⟨p1, p2, rfl⟩ := List.length_eq_two.mp hl
    simp only [List.map_cons, List.map_nil] at he
    cases e1 : to_u16 p1 with
    | error k =>
      rw [e1] at he
      simp only [first_error, Option.some.injEq] at he
      subst he
      exact ⟨by simp [as_date, e1], to_u16_error_shape p1 k e1⟩
    | ok v1 =>
      rw [e1] at he
      cases e2 : to_u16 p2 with
      | error k =>
        rw [e2] at he
        simp only [first_error, Option.some.injEq] at he
        subst he
        exact ⟨by simp [as_date, e1, e2], to_u16_error_shape p2 k e2⟩
      | ok v2 =>
        rw [e2] at he
        simp [first_error] at he
  · obtain ⟨p1, p2, p3, rfl⟩ := List.length_eq_three.mp hl
    simp only [List.map_cons, List.map_nil] at he
    cases e1 : to_u16 p1 with
    | error k =>
      rw [e1] at he
      simp only [first_error, Option.some.injEq] at he
      subst he
      exact ⟨by simp [as_date, e1], to_u16_error_shape p1 k e1⟩
    | ok v1 =>
      rw [e1] at he
      cases e2 : to_u16 p2 with
      | error k =>
        rw [e2] at he
        simp only [first_error, Option.some.injEq] at he
        subst he
        exact ⟨by simp [as_date, e1, e2], to_u16_error_shape p2 k e2⟩
      | ok v2 =>
        rw [e2] at he
        cases e3 : to_u16 p3 with
        | error k =>
          rw [e3] at he
          simp only [first_error, Option.some.injEq] at he
          subst he
          exact ⟨by simp [as_date, e1, e2, e3], to_u16_error_shape p3 k e3⟩
        | ok v3 =>
          rw [e3] at he
          simp [first_error] at he

/-- Unfolding one step of the comparison loop: the loop's early-return cases
coincide with the per-field rule, and the rule's `none` means continue. -/
theorem cmp_loop_cons (a b : Option Nat) (rest : List (Option Nat × Option Nat)) :
    cmp_loop ((a, b) :: rest) =
      match field_rule a b with
      | some o => some o
      | none => cmp_loop rest := by
  rcases a with _ | x <;> rcases b with _ | y <;> simp [cmp_loop, field_rule]
  rcases Nat.lt_trichotomy x y with h | h | h
  · simp [num_cmp, h]
  · subst h
    simp [num_cmp, Nat.lt_irrefl]
  · simp [num_cmp, h, Nat.lt_asymm h]

/-! ## Claim theorems -/

/-- C6: numeric conversion drops only the character at index 0 and only when
it is `'0'`; in particular `"0005"` becomes `"005"` (one zero removed, not
all) and converts to 5. -/
theorem strip0_single_zero_strip :
    (∀ (c : Char) (cs : List Char), strip0 (c :: cs) = if c == '0' then cs else c :: cs) ∧
    strip0 [] = [] ∧
    strip0 ['0', '0', '0', '5'] = ['0', '0', '5'] ∧
    to_u16 ['0', '0', '0', '5'] = .ok 5 :=
  ⟨fun _ _ => rfl, rfl, rfl, rfl⟩

/-- C7: the second branch of the 3-part dispatch (`v3 > 12 AND v1 > 12`) is
unreachable: removing it yields a function extensionally equal to `as_date`
on every holder, because the first branch already captures `v1 > 12`. -/
theorem as_date_branch2_unreachable (h : List Part) :
    as_date h = as_date_no_branch2 h := by
  match h with
  | [] => rfl
  | [p1] => rfl
  | [p1, p2] => rfl
  | [p1, p2, p3] =>
    simp only [as_date, as_date_no_branch2]
    cases e1 : to_u16 p1 with
    | error k => rfl
    | ok v1 =>
      cases e2 : to_u16 p2 with
      | error k => rfl
      | ok v2 =>
        cases e3 : to_u16 p3 with
        | error k => rfl
        | ok v3 =>
          by_cases hv : v1 > 12
          · simp [hv]
          · simp [hv]
  | p1 :: p2 :: p3 :: p4 :: rest => rfl

/-- C8: `partial_cmp` always returns a definite result, and that result is
exactly the field-by-field (year, month, day) comparison in which unknown
loses to known, known unequal values compare numerically, and exhausting all
fields yields equality. -/
theorem partial_cmp_described_total (d1 d2 : Date) :
    partial_cmp d1 d2 = some (cmp_described d1 d2) := by
  unfold partial_cmp cmp_described
  rw [cmp_loop_cons, cmp_loop_cons, cmp_loop_cons]
  cases hy : field_rule d1.year d2.year <;>
    cases hm : field_rule d1.month d2.month <;>
    cases hd : field_rule d1.day d2.day <;>
    simp [cmp_loop]

/-- C9: `find_last_date` returns exactly the last entry of `find_dates`, and
a `NoDatesFound` error carrying the original input when that sequence is
empty. -/
theorem find_last_date_last_entry (s : String)
    (l : List (Except DateError Date)) (r : Except DateError Date) :
    (find_dates s = l ++ [r] → find_last_date s = r) ∧
    (find_dates s = [] → find_last_date s = .error (.NoDatesFound s)) := by
  constructor
  · intro hE
    unfold find_last_date
    rw [hE]
    simp
  · intro hE
    unfold find_last_date
    rw [hE]
    rfl

/-- C9 witness: on "2023-10-05" the last (only) entry is returned; on "abc"
the result is `NoDatesFound "abc"`. -/
theorem find_last_date_last_entry_witness :
    find_last_date "2023-10-05" = .ok ⟨some 2023, some 10, some 5⟩ ∧
    find_last_date "abc" = .error (.NoDatesFound "abc") :=
  ⟨(find_last_date_last_entry "2023-10-05" [] (.ok ⟨some 2023, some 10, some 5⟩)).1 rfl,
   (find_last_date_last_entry "abc" [] (.ok ⟨none, none, none⟩)).2 rfl⟩

/-- One scanner step preserves the invariant that every part already stored
in an emitted or in-progress group is non-empty: mid-scan, parts are added to
the holder only under the non-emptiness check of the separator branch. -/
theorem scan_step_inv (st : ScanState) (c : Char)
    (h1 : ∀ g ∈ st.out, ∀ p ∈ g, p ≠ [])
    (h2 : ∀ p ∈ st.holder, p ≠ []) :
    (∀ g ∈ (scan_step st c).out, ∀ p ∈ g, p ≠ []) ∧
    (∀ p ∈ (scan_step st c).holder, p ≠ []) := by
  unfold scan_step
  split
  · split
    · exact ⟨h1, h2⟩
    · split
      · rename_i hpe
        refine ⟨h1, fun p hp => ?_⟩
        rcases List.mem_append.mp hp with hp | hp
        · exact h2 p hp
        · rw [List.mem_singleton] at hp
          subst hp
          intro hnil
          rw [hnil] at hpe
          simp at hpe
      · exact ⟨h1, h2⟩
  · split
    · refine ⟨fun g hg => ?_, by simp⟩
      rcases List.mem_append.mp hg with hg | hg
      · exact h1 g hg
      · rw [List.mem_singleton] at hg
        subst hg
        exact h2
    · split
      · exact ⟨h1, by simp⟩
      · exact ⟨h1, h2⟩

/-- The non-emptiness invariant carried through the whole scan. -/
theorem scan_inv (cs : List Char) :
    ∀ st : ScanState,
      (∀ g ∈ st.out, ∀ p ∈ g, p ≠ []) →
      (∀ p ∈ st.holder, p ≠ []) →
      (∀ g ∈ (cs.foldl scan_step st).out, ∀ p ∈ g, p ≠ []) ∧
      (∀ p ∈ (cs.foldl scan_step st).holder, p ≠ []) := by
  induction cs with
  | nil => exact fun st h1 h2 => ⟨h1, h2⟩
  | cons c cs ih =>
    intro st h1 h2
    rw [List.foldl_cons]
    obtain ⟨j1, j2⟩ := scan_step_inv st c h1 h2
    exact ih (scan_step st c) j1 j2

/-- With no digit in the input, the scanner state never leaves the all-empty
state. -/
theorem scan_no_digit (cs : List Char) :
    (∀ c ∈ cs, c.isDigit = false) →
    cs.foldl scan_step ⟨[], [], []⟩ = ⟨[], [], []⟩ := by
  induction cs with
  | nil => exact fun _ => rfl
  | cons c cs ih =>
    intro h
    have hc : c.isDigit = false := h c (List.mem_cons_self c cs)
    rw [List.foldl_cons]
    have hstep : scan_step ⟨[], [], []⟩ c = ⟨[], [], []⟩ := by
      unfold scan_step
      cases hsep : is_separator c <;> simp [hc, hsep]
    rw [hstep]
    exact ih fun c' hc' => h c' (List.mem_cons_of_mem c hc')

/-- With no separator in the input, the holder and the output stay empty: a
part can only enter the holder through the separator branch. -/
theorem scan_no_sep (cs : List Char) :
    ∀ st : ScanState, st.holder = [] → st.out = [] →
      (∀ c ∈ cs, is_separator c = false) →
      (cs.foldl scan_step st).holder = [] ∧ (cs.foldl scan_step st).out = [] := by
  induction cs with
  | nil => exact fun st hh ho _ => ⟨hh, ho⟩
  | cons c cs ih =>
    intro st hh ho h
    have hc : is_separator c = false := h c (List.mem_cons_self c cs)
    obtain ⟨part, holder, out⟩ := st
    simp only at hh ho
    subst hh
    subst ho
    rw [List.foldl_cons]
    have hstep : (scan_step ⟨part, [], []⟩ c).holder = [] ∧
        (scan_step ⟨part, [], []⟩ c).out = [] := by
      unfold scan_step
      cases hd : c.isDigit <;> simp [hc, hd]
    exact ih (scan_step ⟨part, [], []⟩ c) hstep.1 hstep.2
      fun c' hc' => h c' (List.mem_cons_of_mem c hc')

/-- C2 counterexample: "1x 2" contains no digit-separator-digit pattern under
either reading (no digit/separator/digit triple, and no two digit runs joined
by separators only), yet `find_dates` returns one entry: the partial digit
run "1" is retained across the terminator 'x' and joined with "2". -/
theorem find_dates_nonempty_without_dsd :
    has_dsd "1x 2".data = false ∧
    has_joined "1x 2".data = false ∧
    find_dates "1x 2" = [.error (.UndecidedDate (some 1, some 2, none))] :=
  ⟨rfl, rfl, rfl⟩

/-- C2 (amended): `find_dates` returns an empty sequence on every input that
contains no digit, and on every input that contains no separator. -/
theorem find_dates_empty_of_no_digit_or_no_sep (s : String)
    (h : (∀ c ∈ s.data, c.isDigit = false) ∨ (∀ c ∈ s.data, is_separator c = false)) :
    find_dates s = [] := by
  unfold find_dates segment finalize_state
  rcases h with h | h
  · rw [scan_no_digit s.data h]
    rfl
  · obtain ⟨hh, ho⟩ := scan_no_sep s.data ⟨[], [], []⟩ rfl rfl h
    simp [hh, ho]

/-- C2 witness: "xyz*" has neither digits nor separators, so no date is
found. -/
theorem find_dates_empty_of_no_digit_or_no_sep_witness :
    (∀ c ∈ "xyz*".data, c.isDigit = false) ∧ find_dates "xyz*" = [] :=
  ⟨by decide, find_dates_empty_of_no_digit_or_no_sep "xyz*" (Or.inl (by decide))⟩

/-- C3 counterexample: on "1-2-" the end-of-input flush appends the empty
in-progress part, so the emitted group contains an empty `NumericPart`, and
the group then fails conversion on the empty string. -/
theorem segment_emits_empty_part :
    segment "1-2-".data = [[['1'], ['2'], []]] ∧
    ([] : Part) ∈ [(['1'] : Part), ['2'], []] ∧
    find_dates "1-2-" = [.error (.InvalidDateFormat "cannot parse integer from empty string")] :=
  ⟨rfl, by decide, rfl⟩

/-- C3 (amended): every part stored into a group during the per-character
scan is non-empty, but the end-of-input flush appends the in-progress part
unconditionally; hence in every emitted group all parts except possibly the
last are non-empty (and only the final flushed group can end empty). -/
theorem segment_dropLast_parts_nonempty (s : String) (g : List Part) (p : Part)
    (hg : g ∈ segment s.data) (hp : p ∈ g.dropLast) : p ≠ [] := by
  obtain ⟨H1, H2⟩ := scan_inv s.data ⟨[], [], []⟩ (by simp) (by simp)
  unfold segment finalize_state at hg
  by_cases hh : (s.data.foldl scan_step ⟨[], [], []⟩).holder.isEmpty
  · simp [hh] at hg
    exact H1 g hg p ((List.dropLast_sublist g).subset hp)
  · simp [hh] at hg
    rcases hg with hg | hg
    · exact H1 g hg p ((List.dropLast_sublist g).subset hp)
    · subst hg
      rw [List.dropLast_concat] at hp
      exact H2 p hp

/-- C3 witness: the first two parts of the group found in "2023-10-05" are in
the group's `dropLast` and are non-empty. -/
theorem segment_dropLast_parts_nonempty_witness :
    [(['2', '0', '2', '3'] : Part), ['1', '0'], ['0', '5']] ∈ segment "2023-10-05".data ∧
    (['2', '0', '2', '3'] : Part) ≠ [] :=
  ⟨by decide,
   segment_dropLast_parts_nonempty "2023-10-05" [['2', '0', '2', '3'], ['1', '0'], ['0', '5']]
     ['2', '0', '2', '3'] (by decide) (by decide)⟩

/-- C4 counterexample: on "1-2-3x4-5" the actual scanner differs from the
part-discarding scanner of the claim: the digit '3', scanned before the
mid-string finalization at 'x', reappears in the subsequently emitted group
as the part "34". -/
theorem segment_retains_partial_part :
    segment "1-2-3x4-5".data ≠ segment_discard "1-2-3x4-5".data ∧
    segment "1-2-3x4-5".data = [[['1'], ['2']], [['3', '4'], ['5']]] ∧
    segment_discard "1-2-3x4-5".data = [[['1'], ['2']], [['4'], ['5']]] :=
  ⟨by decide, rfl, rfl⟩

/-- C4 (amended): when a group-terminator arrives while the in-progress group
has at least 2 parts, the scanner finalizes the group and resets it but
retains the in-progress partial part, which can contribute to a later group
(as on "1-2-3x4-5"). -/
theorem scan_step_finalize_keeps_part :
    (∀ (st : ScanState) (c : Char),
      is_separator c = false → c.isDigit = false → st.holder.length ≥ 2 →
      scan_step st c = ⟨st.part, [], st.out ++ [st.holder]⟩) ∧
    segment "1-2-3x4-5".data = [[['1'], ['2']], [['3', '4'], ['5']]] := by
  constructor
  · intro st c hs hd hl
    unfold scan_step
    simp [hs, hd, hl]
  · rfl

/-- C4 witness: a concrete finalization step with a pending partial part '3'
keeps that part in the state. -/
theorem scan_step_finalize_keeps_part_witness :
    scan_step ⟨['3'], [['1'], ['2']], []⟩ 'x' = ⟨['3'], [], [[['1'], ['2']]]⟩ :=
  scan_step_finalize_keeps_part.1 ⟨['3'], [['1'], ['2']], []⟩ 'x' rfl rfl (by decide)

/-- C1: on a 3-part holder whose conversions succeed with values v1, v2, v3,
`as_date` follows exactly the claimed precedence: v1 > 12 pins (v1, v2, v3)
as (year, month, day); else v3 > 12 AND v1 > 12 gives year v3, month v1,
day v2; else v2 > 12 gives year v3, month v1, day v2; else all-equal gives
(v1, v2, v3); otherwise an undecided-date error carrying
(some v1, some v2, some v3). -/
theorem as_date_three_part_precedence (p1 p2 p3 : Part) (v1 v2 v3 : Nat)
    (h1 : to_u16 p1 = .ok v1) (h2 : to_u16 p2 = .ok v2) (h3 : to_u16 p3 = .ok v3) :
    as_date [p1, p2, p3] =
      if v1 > 12 then .ok ⟨some v1, some v2, some v3⟩
      else if v3 > 12 ∧ v1 > 12 then .ok ⟨some v3, some v1, some v2⟩
      else if v2 > 12 then .ok ⟨some v3, some v1, some v2⟩
      else if v1 = v2 ∧ v2 = v3 then .ok ⟨some v1, some v2, some v3⟩
      else .error (.UndecidedDate (some v1, some v2, some v3)) := by
  simp only [as_date, h1, h2, h3]

/-- C1 witness: the group ("2023", "10", "05") converts to (2023, 10, 5) and
the precedence applied there yields year 2023, month 10, day 5. -/
theorem as_date_three_part_precedence_witness :
    to_u16 ['2', '0', '2', '3'] = .ok 2023 ∧
    to_u16 ['1', '0'] = .ok 10 ∧
    to_u16 ['0', '5'] = .ok 5 ∧
    as_date [['2', '0', '2', '3'], ['1', '0'], ['0', '5']] =
      (if 2023 > 12 then .ok ⟨some 2023, some 10, some 5⟩
       else if 5 > 12 ∧ 2023 > 12 then .ok ⟨some 5, some 2023, some 10⟩
       else if 10 > 12 then .ok ⟨some 5, some 2023, some 10⟩
       else if 2023 = 10 ∧ 10 = 5 then .ok ⟨some 2023, some 10, some 5⟩
       else .error (.UndecidedDate (some 2023, some 10, some 5))) :=
  ⟨rfl, rfl, rfl,
   as_date_three_part_precedence ['2', '0', '2', '3'] ['1', '0'] ['0', '5'] 2023 10 5 rfl rfl rfl⟩

/-- C5 counterexample: in the 2-part group ("0", "20"), conversion of "0"
fails (the index-0 strip leaves the empty string), and the resulting
invalid-format error carries the parse error's message, not the group's
textual rendering "0 20". -/
theorem as_date_parse_error_payload :
    to_u16 ['0'] = .error (.InvalidDateFormat "cannot parse integer from empty string") ∧
    holder_display [['0'], ['2', '0']] = "0 20" ∧
    as_date [['0'], ['2', '0']] ≠ .error (.InvalidDateFormat "0 20") ∧
    as_date [['0'], ['2', '0']] =
      .error (.InvalidDateFormat "cannot parse integer from empty string") :=
  ⟨rfl, rfl, fun hEq => absurd (Except.error.inj hEq) (by decide), rfl⟩

/-- C5 (amended): when some part of a 2- or 3-part group fails numeric
conversion, `as_date` fails with the first failing part's error, which is an
invalid-format error carrying that parse error's message (not the group's
rendering). -/
theorem as_date_first_conversion_error (h : List Part) (e : DateError)
    (hl : h.length = 2 ∨ h.length = 3)
    (he : first_error (h.map to_u16) = some e) :
    as_date h = .error e ∧ ∃ m, e = DateError.InvalidDateFormat m :=
  as_date_err_of_first_error h e hl he

/-- C5 witness: the group ("0", "20") has first conversion error "cannot
parse integer from empty string", and `as_date` fails with exactly that
invalid-format error. -/
theorem as_date_first_conversion_error_witness :
    first_error ([(['0'] : Part), ['2', '0']].map to_u16) =
      some (.InvalidDateFormat "cannot parse integer from empty string") ∧
    (as_date [(['0'] : Part), ['2', '0']] =
        .error (.InvalidDateFormat "cannot parse integer from empty string") ∧
      ∃ m, (DateError.InvalidDateFormat "cannot parse integer from empty string") =
        DateError.InvalidDateFormat m) :=
  ⟨rfl,
   as_date_first_conversion_error [['0'], ['2', '0']]
     (.InvalidDateFormat "cannot parse integer from empty string") (Or.inl rfl) rfl⟩

/-- C10: a 2- or 3-part group containing the single-character part "0" never
disambiguates to a date with a zero field: the index-0 strip leaves an empty
string whose parse fails, so the result is an invalid-format error; in
particular `find_dates "2023-10-0"` yields exactly one `Err` entry. -/
theorem as_date_zero_part_invalid :
    (∀ h : List Part, h.length = 2 ∨ h.length = 3 → ['0'] ∈ h →
      ∃ m, as_date h = .error (.InvalidDateFormat m)) ∧
    find_dates "2023-10-0" =
      [.error (.InvalidDateFormat "cannot parse integer from empty string")] := by
  constructor
  · intro h hl hmem
    have hzero : to_u16 ['0'] =
        .error (.InvalidDateFormat "cannot parse integer from empty string") := rfl
    have hmap : Except.error (DateError.InvalidDateFormat
        "cannot parse integer from empty string") ∈ h.map to_u16 := by
      rw [← hzero]
      exact List.mem_map_of_mem to_u16 hmem
    obtain ⟨e, he⟩ := first_error_is_some (h.map to_u16) _ hmap
    obtain ⟨hdate, m, hm⟩ := as_date_err_of_first_error h e hl he
    exact ⟨m, by rw [hdate, hm]⟩
  · rfl

/-- C10 witness: the 2-part group ("0", "13") disambiguates to an
invalid-format error. -/
theorem as_date_zero_part_invalid_witness :
    (∃ m, as_date [(['0'] : Part), ['1', '3']] = .error (.InvalidDateFormat m)) ∧
    find_dates "2023-10-0" =
      [.error (.InvalidDateFormat "cannot parse integer from empty string")] :=
  ⟨as_date_zero_part_invalid.1 [['0'], ['1', '3']] (Or.inl rfl) (by decide),
   as_date_zero_part_invalid.2⟩

end Rfdate
